import Mathlib

/-!
# Verification of the note-normalization core of `granola_client.py`

This file gives a shallow embedding of the document-content normalization
pipeline of `src/granola_client.py`:

* `process_node` / `process_children` embed the recursive ProseMirror walk
  defined inside `GranolaClient.prosemirror_to_markdown` (lines 213-312);
* `prosemirror_to_markdown` embeds the top-level entry (lines 314-319):
  the `while '\n\n\n' in result` replacement loop is embedded as the
  fuel-bounded `collapseLoop` (the fuel `l.length` suffices because every
  replacement strictly shortens the string, which is proved below);
* `format_transcript` embeds the segment-formatting part of
  `GranolaClient.get_document_transcript` (lines 167-184);
* `get_document_as_markdown` embeds the section-merging logic of
  `GranolaClient.get_document_as_markdown` (lines 338-402), taking the
  already-fetched transcript as an input (the HTTP fetch itself is out of
  scope).

Python strings are embedded as `String`, Python dictionaries for nodes,
marks and attributes as the structures below.  Python's `str.strip()` is
embedded as `pyStrip` (the inputs handled here are ASCII; the extra Unicode
whitespace stripped by Python does not occur).  Python truthiness of an
optional string is embedded as `optTruthy`.
-/

/-- Attributes dictionary of a node or mark (`attrs` in the JSON).  Only the
keys the code reads are modelled; an absent key is `none`, matching
`node.get('attrs', {}).get(key, default)`. -/
structure Attrs where
  level : Option Int := none
  language : Option String := none
  href : Option String := none

/-- An inline mark: `{'type': ..., 'attrs': {...}}`. -/
structure Mark where
  type : String
  attrs : Attrs := {}

/-- A ProseMirror node: `{'type': ..., 'text': ..., 'content': [...],
'marks': [...], 'attrs': {...}}`.  Absent string keys are the empty string
and absent list keys the empty list, matching `node.get('type', '')`,
`node.get('content', [])`, `node.get('text', '')`, `node.get('marks', [])`. -/
inductive Node where
  | mk (type : String) (text : String) (content : List Node) (marks : List Mark) (attrs : Attrs)

/-- The `type` field of a node. -/
def Node.type : Node → String
  | .mk t _ _ _ _ => t

/-- The `text` field of a node. -/
def Node.text : Node → String
  | .mk _ t _ _ _ => t

/-- The `content` field of a node. -/
def Node.content : Node → List Node
  | .mk _ _ c _ _ => c

/-- Whitespace characters stripped by Python's `str.strip()` (ASCII part). -/
def isPyWhitespace (c : Char) : Bool :=
  c = ' ' || c = '\t' || c = '\n' || c = '\r' || c = '\x0b' || c = '\x0c'

/-- Python `str.strip()` on the character list: drop whitespace from the
front, then from the back. -/
def pyStripList (l : List Char) : List Char :=
  List.rdropWhile isPyWhitespace (List.dropWhile isPyWhitespace l)

/-- Python `str.strip()`. -/
def pyStrip (s : String) : String :=
  String.mk (pyStripList s.data)

/-- Python truthiness of an `Optional[str]` value: `None` and `''` are
falsy, every other string is truthy. -/
def optTruthy : Option String → Bool
  | none => false
  | some s => s ≠ ""

mutual

/-- Embedding of the inner function `process_node(node, depth, list_context)`
of `prosemirror_to_markdown` (granola_client.py lines 213-312).  The `depth`
argument only controls debug printing in the source and is threaded through
unchanged.  The recursive call on the children (line 250) passes
`list_context` down unchanged; `list_context` is never replaced anywhere. -/
def process_node : Node → Nat → Option String → String
  | .mk node_type text content marks attrs, depth, list_context =>
    if text ≠ "" then
      marks.foldl (fun result_text mark =>
        if mark.type = "bold" then "**" ++ result_text ++ "**"
        else if mark.type = "italic" then "*" ++ result_text ++ "*"
        else if mark.type = "code" then "`" ++ result_text ++ "`"
        else if mark.type = "link" then
          "[" ++ result_text ++ "](" ++ mark.attrs.href.getD "" ++ ")"
        else result_text) text
    else
      let text_content := String.join (process_children content (depth + 1) list_context)
      if node_type = "doc" then text_content
      else if node_type = "paragraph" then
        if pyStrip text_content = "" then ""
        else if optTruthy list_context then text_content
        else text_content ++ "\n\n"
      else if node_type = "heading" then
        if pyStrip text_content = "" then ""
        else String.mk (List.replicate (attrs.level.getD 1).toNat '#') ++ " "
          ++ text_content ++ "\n\n"
      else if node_type = "bulletList" then text_content
      else if node_type = "orderedList" then text_content
      else if node_type = "listItem" then
        if list_context = some "ordered" then "1. " ++ pyStrip text_content ++ "\n"
        else "- " ++ pyStrip text_content ++ "\n"
      else if node_type = "codeBlock" then
        "```" ++ attrs.language.getD "" ++ "\n" ++ text_content ++ "\n```\n\n"
      else if node_type = "blockquote" then
        String.intercalate "\n"
          (((pyStrip text_content).splitOn "\n").map (fun line => "> " ++ line)) ++ "\n\n"
      else if node_type = "hardBreak" then "\n"
      else if node_type = "horizontalRule" then "---\n\n"
      else text_content

/-- The loop `for child in content: result.append(process_node(child,
depth + 1, list_context))` (lines 248-250); the caller joins the results
with `''.join(result)` (line 252). -/
def process_children : List Node → Nat → Option String → List String
  | [], _, _ => []
  | c :: rest, depth, list_context =>
    process_node c depth list_context :: process_children rest depth list_context

end

/-- Does the character list contain three consecutive newlines?  Embeds the
loop guard `'\n\n\n' in result` (line 317). -/
def hasNNN : List Char → Bool
  | [] => false
  | [_] => false
  | [_, _] => false
  | a :: b :: c :: rest =>
    (a = '\n' && b = '\n' && c = '\n') || hasNNN (b :: c :: rest)

/-- One pass of `result.replace('\n\n\n', '\n\n')` (line 318): replace every
non-overlapping occurrence of three newlines by two, left to right. -/
def replace3 : List Char → List Char
  | [] => []
  | [c] => [c]
  | [c, d] => [c, d]
  | a :: b :: c :: rest =>
    if a = '\n' && b = '\n' && c = '\n' then '\n' :: '\n' :: replace3 rest
    else a :: replace3 (b :: c :: rest)

/-- The loop `while '\n\n\n' in result: result = result.replace(...)`
(lines 317-318), bounded by fuel.  Each iteration strictly shortens the
list (proved in `replace3_length_lt`), so fuel `l.length` reaches the
loop's fixed point (proved in `hasNNN_collapseLoop`). -/
def collapseLoop : Nat → List Char → List Char
  | 0, l => l
  | fuel + 1, l => if hasNNN l then collapseLoop fuel (replace3 l) else l

/-- The newline-collapsing loop run to completion. -/
def collapseNewlines (l : List Char) : List Char :=
  collapseLoop l.length l

/-- Embedding of `GranolaClient.prosemirror_to_markdown` (lines 314-319) on
a dictionary input: run the recursive walk from the root with no list
context, collapse runs of three or more newlines, then strip. -/
def prosemirror_to_markdown (prosemirror_json : Node) : String :=
  String.mk (pyStripList (collapseNewlines (process_node prosemirror_json 0 none).data))

/-- One raw transcript segment `{'source': ..., 'text': ...}`; absent keys
are the empty string, matching `segment.get('source', '')`. -/
structure Segment where
  source : String
  text : String

/-- Embedding of the formatting loop of `get_document_transcript` (lines
168-182): skip segments whose stripped text is empty, label microphone
segments `**Me:**`, system segments `**System:**`, and keep other sources'
text raw. -/
def format_transcript_lines : List Segment → List String
  | [] => []
  | seg :: rest =>
    if pyStrip seg.text = "" then format_transcript_lines rest
    else if seg.source = "microphone" then
      ("**Me:** " ++ pyStrip seg.text) :: format_transcript_lines rest
    else if seg.source = "system" then
      ("**System:** " ++ pyStrip seg.text) :: format_transcript_lines rest
    else pyStrip seg.text :: format_transcript_lines rest

/-- `formatted_transcript = "\n\n".join(formatted_lines)` (line 184). -/
def format_transcript (segments : List Segment) : String :=
  String.intercalate "\n\n" (format_transcript_lines segments)

/-- Input of `get_document_as_markdown` (lines 322-402).  `transcript` is
the value returned by `self.get_document_transcript(doc_id)` (`none` when
there is no document id or the fetch returned `None`); `notes_markdown`,
`notes_plain` and `text` are the document's string fields (absent = `""`);
`manual_content` is the first truthy value among the document's `notes`,
`content` and `prosemirror_content` fields (`none` when all are falsy; the
dictionary-valued case of line 369 is modelled — a JSON-string value, lines
371-376, would first be parsed back into such a tree). -/
structure MergeInput where
  transcript : Option String
  notes_markdown : String
  manual_content : Option Node
  notes_plain : String
  text : String

/-- Section 1 (lines 343-348): the transcript section, present when the
fetched transcript is truthy. -/
def transcript_sections (inp : MergeInput) : List String :=
  match inp.transcript with
  | some t => if t ≠ "" then ["# Transcript\n\n" ++ t] else []
  | none => []

/-- Section 2 (lines 351-355): `enhanced_notes =
document.get('notes_markdown', '').strip()`, appended when truthy. -/
def enhanced_sections (inp : MergeInput) : List String :=
  if pyStrip inp.notes_markdown ≠ "" then
    ["# Enhanced Notes (by Granola)\n\n" ++ pyStrip inp.notes_markdown]
  else []

/-- Section 3 (lines 358-389): render the manual content, strip it, and
append it when it is truthy, longer than 10 characters, and either the
enhanced notes are empty or it differs from `enhanced_notes.strip()`. -/
def manual_sections (inp : MergeInput) : List String :=
  match inp.manual_content with
  | none => []
  | some node =>
    let manual_markdown := pyStrip (prosemirror_to_markdown node)
    if manual_markdown ≠ "" ∧ manual_markdown.length > 10 then
      if pyStrip inp.notes_markdown = ""
          ∨ manual_markdown ≠ pyStrip (pyStrip inp.notes_markdown) then
        ["# Manual Notes\n\n" ++ manual_markdown]
      else []
    else []

/-- The `sections` list built by `get_document_as_markdown`, in the order
the code appends: Transcript, then Enhanced Notes, then Manual Notes. -/
def sections_of (inp : MergeInput) : List String :=
  transcript_sections inp ++ enhanced_sections inp ++ manual_sections inp

/-- Embedding of `GranolaClient.get_document_as_markdown` (lines 338-402):
join the qualifying sections with `"\n\n---\n\n"`; with no section, fall
back to `document.get('notes_plain', '') or document.get('text', '')`. -/
def get_document_as_markdown (inp : MergeInput) : String :=
  if sections_of inp ≠ [] then
    String.intercalate "\n\n---\n\n" (sections_of inp)
  else if inp.notes_plain ≠ "" then inp.notes_plain
  else inp.text

/-- A leaf text node, as produced by the note service. -/
def textNode (s : String) (marks : List Mark := []) : Node :=
  .mk "text" s [] marks {}

/-- A block node with children and no attributes. -/
def blockNode (type : String) (children : List Node) : Node :=
  .mk type "" children [] {}

/-! ## Properties of the newline-collapsing loop and of stripping -/

/-- One replacement pass never lengthens the string. -/
theorem replace3_length_le (l : List Char) : (replace3 l).length ≤ l.length := by
  induction l using replace3.induct with
  | case1 => simp [replace3]
  | case2 c => simp [replace3]
  | case3 c d => simp [replace3]
  | case4 a b c rest h ih =>
    simp only [replace3, if_pos h, List.length_cons]
    omega
  | case5 a b c rest h ih =>
    simp only [replace3, if_neg h, List.length_cons] at *
    omega

/-- While the loop guard `'\n\n\n' in result` holds, one replacement pass
strictly shortens the string. -/
theorem replace3_length_lt (l : List Char) (h : hasNNN l = true) :
    (replace3 l).length < l.length := by
  induction l using replace3.induct with
  | case1 => simp [hasNNN] at h
  | case2 c => simp [hasNNN] at h
  | case3 c d => simp [hasNNN] at h
  | case4 a b c rest hc ih =>
    simp only [replace3, if_pos hc, List.length_cons]
    have := replace3_length_le rest
    omega
  | case5 a b c rest hc ih =>
    simp only [hasNNN, Bool.or_eq_true] at h
    rcases h with h | h
    · exact absurd h hc
    · simp only [replace3, if_neg hc, List.length_cons]
      have := ih h
      simp only [List.length_cons] at this
      omega

/-- With at least `l.length` fuel the loop reaches its fixed point: the
result contains no run of three newlines. -/
theorem hasNNN_collapseLoop (fuel : Nat) (l : List Char) (h : l.length ≤ fuel) :
    hasNNN (collapseLoop fuel l) = false := by
  induction fuel generalizing l with
  | zero =>
    interval_cases hl : l.length
    · match l, hl with
      | [], _ => rfl
  | succ n ih =>
    simp only [collapseLoop]
    split
    · rename_i hg
      exact ih _ (by have := replace3_length_lt l hg; omega)
    · rename_i hg
      simpa using hg

/-- Three consecutive newlines survive prepending one character. -/
theorem hasNNN_cons (a : Char) (l : List Char) (h : hasNNN l = true) :
    hasNNN (a :: l) = true := by
  match l with
  | [] => simp [hasNNN] at h
  | [x] => simp [hasNNN] at h
  | [x, y] => simp [hasNNN] at h
  | x :: y :: z :: rest =>
    simp only [hasNNN, Bool.or_eq_true, Bool.and_eq_true, decide_eq_true_eq] at h ⊢
    tauto

/-- Three consecutive newlines survive appending on the right. -/
theorem hasNNN_append_left (l t : List Char) (h : hasNNN l = true) :
    hasNNN (l ++ t) = true := by
  induction l using hasNNN.induct with
  | case1 => simp [hasNNN] at h
  | case2 x => simp [hasNNN] at h
  | case3 x y => simp [hasNNN] at h
  | case4 a b c rest ih =>
    simp only [hasNNN, Bool.or_eq_true] at h
    simp only [List.cons_append, hasNNN, Bool.or_eq_true]
    rcases h with h | h
    · exact Or.inl h
    · exact Or.inr (by simpa using ih h)

/-- Three consecutive newlines survive prepending on the left. -/
theorem hasNNN_prepend (l t : List Char) (h : hasNNN l = true) :
    hasNNN (t ++ l) = true := by
  induction t with
  | nil => simpa using h
  | cons a t ih => exact hasNNN_cons a _ ih

/-- Stripping cannot create a run of three newlines. -/
theorem hasNNN_pyStripList (l : List Char) (h : hasNNN l = false) :
    hasNNN (pyStripList l) = false := by
  by_contra hc
  rw [Bool.not_eq_false] at hc
  obtain ⟨t1, ht1⟩ := List.rdropWhile_prefix isPyWhitespace (List.dropWhile isPyWhitespace l)
  obtain ⟨t2, ht2⟩ := List.dropWhile_suffix (l := l) isPyWhitespace
  have h1 : hasNNN (List.dropWhile isPyWhitespace l) = true := by
    rw [← ht1]
    exact hasNNN_append_left _ _ hc
  have h2 : hasNNN l = true := by
    rw [← ht2]
    exact hasNNN_prepend _ _ h1
  rw [h] at h2
  exact Bool.false_ne_true h2

/-- Dropping trailing whitespace preserves having no leading whitespace. -/
theorem dropWhile_rdropWhile_self (u : List Char)
    (hu : List.dropWhile isPyWhitespace u = u) :
    List.dropWhile isPyWhitespace (List.rdropWhile isPyWhitespace u)
      = List.rdropWhile isPyWhitespace u := by
  obtain ⟨t, ht⟩ := List.rdropWhile_prefix isPyWhitespace u
  cases hr : List.rdropWhile isPyWhitespace u with
  | nil => simp
  | cons a rt =>
    have hua : u = a :: (rt ++ t) := by rw [← ht, hr, List.cons_append]
    have h0 : 0 < u.length := by rw [hua]; simp
    have ha : isPyWhitespace (u.get ⟨0, h0⟩) = false := by
      have := List.dropWhile_eq_self_iff.mp hu h0
      simpa using this
    have ha' : isPyWhitespace a = false := by
      have : u.get ⟨0, h0⟩ = a := by simp [hua]
      rwa [this] at ha
    simp [List.dropWhile_cons, ha']

/-- Python's `strip` is idempotent. -/
theorem pyStripList_idem (l : List Char) : pyStripList (pyStripList l) = pyStripList l := by
  unfold pyStripList
  rw [dropWhile_rdropWhile_self _ (List.dropWhile_idempotent _ _),
    List.rdropWhile_idempotent]

/-- Python's `strip` is idempotent, on `String`. -/
theorem pyStrip_idem (s : String) : pyStrip (pyStrip s) = pyStrip s := by
  unfold pyStrip
  exact congrArg String.mk (pyStripList_idem s.data)

/-! ## Claims -/

/-- Claim C1 (code bug).  The claim says a `listItem` that is a child of an
`orderedList` is rendered with the literal prefix `1. ` (that being what
"enclosing list context is ordered" means) and `- ` otherwise.  The code's
`listItem` branch does render `1. ` when `list_context == 'ordered'`
(second conjunct), but `list_context` is never set when recursing into an
`orderedList`'s children, so an actual child of an `orderedList` is
rendered with the `- ` prefix (first conjunct): the dispatcher branch
matches the claim but is unreachable from `prosemirror_to_markdown`. -/
theorem C1_ordered_listItem_renders_bullet :
    prosemirror_to_markdown
        (blockNode "doc" [blockNode "orderedList" [blockNode "listItem"
          [blockNode "paragraph" [textNode "A"]]]]) = "- A"
      ∧ process_node (blockNode "listItem" [textNode "A"]) 2 (some "ordered") = "1. A\n" :=
  ⟨rfl, rfl⟩

/-- Claim C2 (code bug).  The claim says children of a `bulletList` are
rendered under list context `'bullet'` and children of an `orderedList`
under `'ordered'`, reaching the paragraphs inside the item.  In the code
the recursive call (line 250) passes the inherited `list_context` through
unchanged and nothing ever passes `'bullet'` or `'ordered'`, so inside an
`orderedList` the context stays `None`: the item gets the `- ` prefix and
its paragraphs still append `\n\n` (first conjunct); had the item been
rendered under context `'ordered'` as claimed, the output would have been
`1. AB\n` (second conjunct). -/
theorem C2_list_context_never_propagated :
    prosemirror_to_markdown
        (blockNode "orderedList" [blockNode "listItem"
          [blockNode "paragraph" [textNode "A"], blockNode "paragraph" [textNode "B"]]])
      = "- A\n\nB"
    ∧ process_node (blockNode "listItem"
        [blockNode "paragraph" [textNode "A"], blockNode "paragraph" [textNode "B"]]) 1
        (some "ordered")
      = "1. AB\n" :=
  ⟨rfl, rfl⟩

/-- Claim C3.  For a leaf node (non-empty `text`) the renderer folds the
mark list over the text in listed order; each mark wraps the string built
so far: bold in `**…**`, italic in `*…*`, inline code in backticks, link in
`[…](href)` with `href` from the mark's attributes (default `""`), and any
other mark kind leaves the string unchanged.  In particular marks
`[bold, italic]` on `"hi"` yield `"*" ++ "**hi**" ++ "*"`. -/
theorem C3_marks_wrap_in_listed_order :
    (∀ (ty t : String) (content : List Node) (marks : List Mark) (attrs : Attrs)
        (depth : Nat) (ctx : Option String), t ≠ "" →
      process_node (.mk ty t content marks attrs) depth ctx =
        marks.foldl (fun result_text mark =>
          if mark.type = "bold" then "**" ++ result_text ++ "**"
          else if mark.type = "italic" then "*" ++ result_text ++ "*"
          else if mark.type = "code" then "`" ++ result_text ++ "`"
          else if mark.type = "link" then
            "[" ++ result_text ++ "](" ++ mark.attrs.href.getD "" ++ ")"
          else result_text) t)
    ∧ process_node (textNode "hi" [⟨"bold", {}⟩, ⟨"italic", {}⟩]) 0 none
        = "*" ++ "**hi**" ++ "*" := by
  constructor
  · intro ty t content marks attrs depth ctx ht
    simp only [process_node, if_pos ht]
  · rfl

/-- Witness for `C3_marks_wrap_in_listed_order`: a leaf `"hi"` with a
single link mark whose `href` is `"u"` renders to `"[hi](u)"`. -/
theorem C3_marks_wrap_in_listed_order_witness :
    ("hi" : String) ≠ ""
      ∧ process_node (.mk "text" "hi" [] [⟨"link", ⟨none, none, some "u"⟩⟩] {}) 0 none
        = "[hi](u)" :=
  ⟨by decide,
    (C3_marks_wrap_in_listed_order.1 "text" "hi" [] [⟨"link", ⟨none, none, some "u"⟩⟩] {} 0 none
      (by decide)).trans rfl⟩

/-- Claim C7 (corrected).  The part of the claim that holds on the code:
a node of unrecognized kind (and empty `text`) renders as the plain
concatenation of its children's rendered output, and with no children at
all it renders to the empty string.  The original claim's second clause —
that EVERY node with neither text nor children renders to the empty
string — is false: recognized kinds with fixed markup emit it anyway (see
`C7_counterexample_horizontalRule`). -/
theorem C7_unknown_kind_concatenates_children :
    (∀ (ty : String) (content : List Node) (marks : List Mark) (attrs : Attrs)
        (depth : Nat) (ctx : Option String),
      ty ∉ ["doc", "paragraph", "heading", "bulletList", "orderedList", "listItem",
        "codeBlock", "blockquote", "hardBreak", "horizontalRule"] →
      process_node (.mk ty "" content marks attrs) depth ctx
        = String.join (process_children content (depth + 1) ctx))
    ∧ (∀ (ty : String) (marks : List Mark) (attrs : Attrs) (depth : Nat) (ctx : Option String),
      ty ∉ ["doc", "paragraph", "heading", "bulletList", "orderedList", "listItem",
        "codeBlock", "blockquote", "hardBreak", "horizontalRule"] →
      process_node (.mk ty "" [] marks attrs) depth ctx = "") := by
  have key : ∀ (ty : String) (content : List Node) (marks : List Mark) (attrs : Attrs)
      (depth : Nat) (ctx : Option String),
      ty ∉ ["doc", "paragraph", "heading", "bulletList", "orderedList", "listItem",
        "codeBlock", "blockquote", "hardBreak", "horizontalRule"] →
      process_node (.mk ty "" content marks attrs) depth ctx
        = String.join (process_children content (depth + 1) ctx) := by
    intro ty content marks attrs depth ctx h
    simp only [List.mem_cons, List.not_mem_nil, or_false, not_or] at h
    obtain ⟨h1, h2, h3, h4, h5, h6, h7, h8, h9, h10⟩ := h
    simp [process_node, h1, h2, h3, h4, h5, h6, h7, h8, h9, h10]
  exact ⟨key, fun ty marks attrs depth ctx h => (key ty [] marks attrs depth ctx h).trans rfl⟩

/-- Witness for `C7_unknown_kind_concatenates_children`: an unknown block
kind with a single text child renders as that child's text. -/
theorem C7_unknown_kind_concatenates_children_witness :
    ("mysteryBlock" : String) ∉ ["doc", "paragraph", "heading", "bulletList", "orderedList",
        "listItem", "codeBlock", "blockquote", "hardBreak", "horizontalRule"]
      ∧ process_node (.mk "mysteryBlock" "" [textNode "A"] [] {}) 0 none = "A" :=
  ⟨by decide,
    (C7_unknown_kind_concatenates_children.1 "mysteryBlock" [textNode "A"] [] {} 0 none
      (by decide)).trans rfl⟩

/-- Counterexample to claim C7 as stated: a `horizontalRule` node has
neither non-empty `text` nor children, yet it renders to `"---"` (and to
`"---\n\n"` before the top-level cleanup), not to the empty string. -/
theorem C7_counterexample_horizontalRule :
    prosemirror_to_markdown (blockNode "horizontalRule" []) = "---"
      ∧ ("---" : String) ≠ "" :=
  ⟨rfl, by decide⟩

/-- Claim C8.  Each transcript segment with non-empty stripped text is
rendered `**Me:** <text>` for source `microphone`, `**System:** <text>` for
source `system`, and as the raw (stripped) text otherwise; segments with
empty stripped text are dropped; the lines are joined with a blank line.
Concretely `[{microphone, "hi"}, {system, ""}]` renders to the single line
`"**Me:** hi"`. -/
theorem C8_transcript_segment_rendering :
    (∀ (seg : Segment) (rest : List Segment),
      format_transcript_lines (seg :: rest) =
        (if pyStrip seg.text = "" then []
         else if seg.source = "microphone" then ["**Me:** " ++ pyStrip seg.text]
         else if seg.source = "system" then ["**System:** " ++ pyStrip seg.text]
         else [pyStrip seg.text]) ++ format_transcript_lines rest)
    ∧ format_transcript [⟨"microphone", "hi"⟩, ⟨"system", ""⟩] = "**Me:** hi"
    ∧ format_transcript [⟨"microphone", "hi"⟩, ⟨"system", "yo"⟩]
        = "**Me:** hi\n\n**System:** yo" := by
  refine ⟨?_, rfl, rfl⟩
  intro seg rest
  by_cases h1 : pyStrip seg.text = "" <;>
    by_cases h2 : seg.source = "microphone" <;>
    by_cases h3 : seg.source = "system" <;>
    simp [format_transcript_lines, h1, h2, h3]

/-- Claim C9.  The top level collapses every run of three or more newlines
to exactly two and strips the result, so the final output of the renderer
never contains three consecutive newlines and is a fixed point of
stripping; a run of five newlines collapses to exactly two. -/
theorem C9_output_has_no_triple_newline :
    (∀ node : Node,
      hasNNN (prosemirror_to_markdown node).data = false
        ∧ pyStrip (prosemirror_to_markdown node) = prosemirror_to_markdown node)
    ∧ collapseNewlines ['\n', '\n', '\n', '\n', '\n'] = ['\n', '\n'] := by
  refine ⟨fun node => ⟨?_, ?_⟩, rfl⟩
  · exact hasNNN_pyStripList _ (hasNNN_collapseLoop _ _ le_rfl)
  · exact congrArg String.mk (pyStripList_idem _)

/-- Claim C10.  Termination: the renderer's recursion is well-founded
because every child is a strictly smaller subtree, and the top-level
collapsing loop terminates because each replacement pass strictly decreases
the length while the guard holds (hence fuel `l.length` reaches the fixed
point, as `hasNNN_collapseLoop` shows). -/
theorem C10_rendering_terminates :
    (∀ l : List Char, hasNNN l = true → (replace3 l).length < l.length)
    ∧ (∀ (c : Node) (ty tx : String) (content : List Node) (marks : List Mark) (attrs : Attrs),
        c ∈ content → sizeOf c < sizeOf (Node.mk ty tx content marks attrs)) := by
  refine ⟨replace3_length_lt, ?_⟩
  intro c ty tx content marks attrs h
  have := List.sizeOf_lt_of_mem h
  simp only [Node.mk.sizeOf_spec]
  omega

/-- Witness for `C10_rendering_terminates` at concrete inputs: one
replacement pass on `"\n\n\n"` shortens it, and a concrete child is
smaller than its parent node. -/
theorem C10_rendering_terminates_witness :
    hasNNN ['\n', '\n', '\n'] = true
      ∧ (replace3 ['\n', '\n', '\n']).length < (['\n', '\n', '\n'] : List Char).length
      ∧ textNode "A" ∈ [textNode "A"]
      ∧ sizeOf (textNode "A") < sizeOf (Node.mk "paragraph" "" [textNode "A"] [] {}) :=
  ⟨by decide, C10_rendering_terminates.1 _ (by decide), List.mem_singleton.mpr rfl,
    C10_rendering_terminates.2 _ "paragraph" "" [textNode "A"] [] {}
      (List.mem_singleton.mpr rfl)⟩

/-- The code's inclusion test for the Manual Notes section (truthiness,
length threshold, dedup against `enhanced_notes.strip()`) is equivalent to
the spec's condition: stripped length above 10 and different from the
stripped enhanced notes. -/
theorem manual_condition_equiv (mm nm : String) :
    (if mm ≠ "" ∧ mm.length > 10 then
      (if pyStrip nm = "" ∨ mm ≠ pyStrip (pyStrip nm) then ["# Manual Notes\n\n" ++ mm] else [])
    else []) =
    (if mm.length > 10 ∧ mm ≠ pyStrip nm then ["# Manual Notes\n\n" ++ mm] else []) := by
  rw [pyStrip_idem]
  by_cases hl : mm.length > 10
  · have hne : mm ≠ "" := by
      intro he
      rw [he] at hl
      simp at hl
    rw [if_pos ⟨hne, hl⟩]
    by_cases heq : mm = pyStrip nm
    · have c2 : ¬(pyStrip nm = "" ∨ mm ≠ pyStrip nm) := by
        rintro (hterm | hx)
        · exact hne (heq.trans hterm)
        · exact hx heq
      have c3 : ¬(mm.length > 10 ∧ mm ≠ pyStrip nm) := fun hc => hc.2 heq
      rw [if_neg c2, if_neg c3]
    · rw [if_pos (Or.inr heq), if_pos ⟨hl, heq⟩]
  · have c1 : ¬(mm ≠ "" ∧ mm.length > 10) := fun hc => hl hc.2
    have c2 : ¬(mm.length > 10 ∧ mm ≠ pyStrip nm) := fun hc => hl hc.1
    rw [if_neg c1, if_neg c2]

/-- Claim C4.  The Manual Notes section is appended iff the stripped
rendered manual content is longer than 10 characters AND differs from the
stripped enhanced-notes string (the code's extra `manual_markdown`
truthiness test and its `not enhanced_notes` disjunct collapse into this
condition); in particular, whenever the stripped manual notes equal the
stripped enhanced notes the Manual Notes section is absent. -/
theorem C4_manual_notes_threshold_and_dedup (inp : MergeInput) (node : Node)
    (h : inp.manual_content = some node) :
    (sections_of inp = transcript_sections inp ++ enhanced_sections inp ++
        (if (pyStrip (prosemirror_to_markdown node)).length > 10
            ∧ pyStrip (prosemirror_to_markdown node) ≠ pyStrip inp.notes_markdown then
          ["# Manual Notes\n\n" ++ pyStrip (prosemirror_to_markdown node)]
        else []))
    ∧ (pyStrip (prosemirror_to_markdown node) = pyStrip inp.notes_markdown →
        sections_of inp = transcript_sections inp ++ enhanced_sections inp) := by
  obtain ⟨tr, nm, mc, np, tx⟩ := inp
  have hmc : mc = some node := h
  subst hmc
  have hms : manual_sections ⟨tr, nm, some node, np, tx⟩ =
      (if (pyStrip (prosemirror_to_markdown node)).length > 10
          ∧ pyStrip (prosemirror_to_markdown node) ≠ pyStrip nm then
        ["# Manual Notes\n\n" ++ pyStrip (prosemirror_to_markdown node)]
      else []) :=
    manual_condition_equiv (pyStrip (prosemirror_to_markdown node)) nm
  constructor
  · show transcript_sections _ ++ enhanced_sections _ ++ manual_sections _ = _
    rw [hms]
  · intro heq
    have hcond : ¬((pyStrip (prosemirror_to_markdown node)).length > 10
        ∧ pyStrip (prosemirror_to_markdown node) ≠ pyStrip nm) := fun hc => hc.2 heq
    show transcript_sections _ ++ enhanced_sections _ ++ manual_sections _ = _
    rw [hms, if_neg hcond, List.append_nil]

/-- A concrete merge input whose manual notes render exactly to its
enhanced-notes string. -/
def mergeExampleDup : MergeInput :=
  ⟨some "T", "hello world notes",
    some (blockNode "paragraph" [textNode "hello world notes"]), "", ""⟩

/-- Witness for `C4_manual_notes_threshold_and_dedup`: when the rendered
manual notes equal the stripped enhanced notes, the Manual Notes section is
absent. -/
theorem C4_manual_notes_threshold_and_dedup_witness :
    mergeExampleDup.manual_content
        = some (blockNode "paragraph" [textNode "hello world notes"])
      ∧ pyStrip (prosemirror_to_markdown (blockNode "paragraph" [textNode "hello world notes"]))
        = pyStrip mergeExampleDup.notes_markdown
      ∧ sections_of mergeExampleDup
        = transcript_sections mergeExampleDup ++ enhanced_sections mergeExampleDup :=
  ⟨rfl, rfl,
    (C4_manual_notes_threshold_and_dedup mergeExampleDup _ rfl).2 rfl⟩

/-- Claim C5.  When at least one section qualifies, the merge output is
exactly the qualifying sections in the fixed order Transcript → Enhanced
Notes → Manual Notes, joined by the separator `"\n\n---\n\n"` (the line
`---` surrounded by blank lines). -/
theorem C5_sections_joined_in_fixed_order (inp : MergeInput)
    (h : sections_of inp ≠ []) :
    get_document_as_markdown inp
      = String.intercalate "\n\n---\n\n"
          (transcript_sections inp ++ enhanced_sections inp ++ manual_sections inp) := by
  unfold get_document_as_markdown
  rw [if_pos h]
  rfl

/-- The claim's end-to-end scenario: transcript `"T"`, enhanced notes
`"E"`, manual content rendering to `"E"`. -/
def mergeExampleTE : MergeInput :=
  ⟨some "T", "E", some (blockNode "paragraph" [textNode "E"]), "", ""⟩

/-- Witness for `C5_sections_joined_in_fixed_order`: the scenario merges to
exactly the transcript and enhanced-notes sections with one separator and
no Manual Notes section. -/
theorem C5_sections_joined_in_fixed_order_witness :
    sections_of mergeExampleTE ≠ []
      ∧ get_document_as_markdown mergeExampleTE
        = "# Transcript\n\nT\n\n---\n\n# Enhanced Notes (by Granola)\n\nE" :=
  ⟨by decide,
    (C5_sections_joined_in_fixed_order mergeExampleTE (by decide)).trans rfl⟩

/-- Claim C6.  When no section qualifies and the document supplies no
fallback plain-text field (`notes_plain` and `text` both empty), the merge
returns the empty string — the "skip this document" sentinel. -/
theorem C6_empty_merge_returns_empty_string (inp : MergeInput)
    (h1 : sections_of inp = []) (h2 : inp.notes_plain = "") (h3 : inp.text = "") :
    get_document_as_markdown inp = "" := by
  unfold get_document_as_markdown
  simp [h1, h2, h3]

/-- Witness for `C6_empty_merge_returns_empty_string`: a document with no
transcript, no enhanced notes, no manual content and no fallback fields
merges to the empty string. -/
theorem C6_empty_merge_returns_empty_string_witness :
    sections_of ⟨none, "", none, "", ""⟩ = []
      ∧ get_document_as_markdown ⟨none, "", none, "", ""⟩ = "" :=
  ⟨rfl, C6_empty_merge_returns_empty_string ⟨none, "", none, "", ""⟩ rfl rfl rfl⟩
